import Mathlib

/-!
Verification development for the bookGen Blender add-on.

This file gives a shallow embedding of the add-on's core fill loop
(bookGen.run in bookGen/__init__.py), of the rebuild operator's seed
bookkeeping (OBJECT_OT_BookGenRebuild.run in bookGen/operator.py) and of
get_shelf_collection_by_index (bookGen/utils.py), and proves or refutes
the specified properties about them.

Conventions of the embedding:
- Python floats are modelled as exact rationals; the literals 0.4 and 0.2
  of the source become 2/5 and 1/5.
- The Python global random module is modelled as a stream of values
  rnd : Nat -> Rat (each call of random.random() reads the next position);
  random.seed s replaces the whole stream by one determined by s alone.
  The genuine stream values lie in the interval [0, 1); theorems that need
  this range take it as an explicit hypothesis.
- The while loop of bookGen.run is embedded with explicit fuel, because the
  source loop has no iteration bound and genuinely diverges on some inputs.
- A book's world location in the source is
  scene_cursor + (cos angle * cur_offset, sin angle * cur_offset, book_height / 2),
  so the placement of a book is fully determined by the rotation tag, the
  scalar offset cur_offset and the resolved book height recorded here.
-/

set_option maxRecDepth 100000

namespace BookGen

/-- Rotation of a placed book around the z axis: the source picks angle 0 for
axis "0", radians(90) for axis "1" and the user angle for axis "2". -/
inductive PlacementAngle
  | xAxis
  | yAxis
  | custom (a : ℚ)
deriving Repr, DecidableEq, Inhabited

/-- Resolved per-book dimensions, exactly the local variables computed by
bookGen.run before and inside the fill loop (lines 126-157 and 198-229 of
bookGen/__init__.py).  textblockOffset records the resolved value
scale * textblock_offset * (1 + noise) that the source computes inline. -/
structure Dims where
  bookHeight : ℚ
  bookWidth : ℚ
  bookDepth : ℚ
  coverThickness : ℚ
  textblockOffset : ℚ
  textblockHeight : ℚ
  textblockDepth : ℚ
  textblockThickness : ℚ
  splineCurl : ℚ
  hingeInset : ℚ
  hingeWidth : ℚ
  spacing : ℚ
deriving Repr, DecidableEq, Inhabited

/-- Operator parameters of the bookGen operator (bpy properties of the class
bookGen in bookGen/__init__.py). -/
structure Config where
  width : ℚ
  scale : ℚ
  seed : ℤ
  axis : ℕ
  angle : ℚ
  book_height : ℚ
  rndm_book_height_factor : ℚ
  book_width : ℚ
  rndm_book_width_factor : ℚ
  book_depth : ℚ
  rndm_book_depth_factor : ℚ
  cover_thickness : ℚ
  rndm_cover_thickness_factor : ℚ
  textblock_offset : ℚ
  rndm_textblock_offset_factor : ℚ
  spline_curl : ℚ
  rndm_spline_curl_factor : ℚ
  hinge_inset : ℚ
  rndm_hinge_inset_factor : ℚ
  hinge_width : ℚ
  rndm_hinge_width_factor : ℚ
  spacing : ℚ
  rndm_spacing_factor : ℚ
deriving DecidableEq

/-- One emitted book: its resolved dimensions and its placement (rotation tag
and the cumulative offset cur_offset along the placement axis). -/
structure Book where
  dims : Dims
  rotation : PlacementAngle
  offset : ℚ
deriving Repr, DecidableEq, Inhabited

/-- Mutable state of the fill loop: cur_width, cur_offset, the dimensions
drawn for the next book, and the position of the random stream. -/
structure State where
  curWidth : ℚ
  curOffset : ℚ
  dims : Dims
  k : ℕ
deriving Repr, DecidableEq

/-- Symmetric per-dimension noise of the source: (random.random()*0.4-0.2)*factor. -/
def noise (r f : ℚ) : ℚ := (r * (2 / 5) - 1 / 5) * f

/-- Dimensions drawn before the loop (lines 126-157).  Spacing noise is
one-sided (random.random()*factor, line 139) and the hinge inset is not
clamped here. -/
def initDims (cfg : Config) (rnd : ℕ → ℚ) : Dims :=
  let nh := noise (rnd 0) cfg.rndm_book_height_factor
  let nw := noise (rnd 1) cfg.rndm_book_width_factor
  let nd := noise (rnd 2) cfg.rndm_book_depth_factor
  let nt := noise (rnd 3) cfg.rndm_textblock_offset_factor
  let nc := noise (rnd 4) cfg.rndm_cover_thickness_factor
  let ns := noise (rnd 5) cfg.rndm_spline_curl_factor
  let nhi := noise (rnd 6) cfg.rndm_hinge_inset_factor
  let nhw := noise (rnd 7) cfg.rndm_hinge_width_factor
  let nsp := rnd 8 * cfg.rndm_spacing_factor
  let bh := cfg.scale * cfg.book_height * (1 + nh)
  let bw := cfg.scale * cfg.book_width * (1 + nw)
  let bd := cfg.scale * cfg.book_depth * (1 + nd)
  let ct := cfg.scale * cfg.cover_thickness * (1 + nc)
  let tbo := cfg.scale * cfg.textblock_offset * (1 + nt)
  { bookHeight := bh
    bookWidth := bw
    bookDepth := bd
    coverThickness := ct
    textblockOffset := tbo
    textblockHeight := bh - tbo
    textblockDepth := bd - tbo
    textblockThickness := bw - 2 * ct
    splineCurl := cfg.scale * cfg.spline_curl * (1 + ns)
    hingeInset := cfg.scale * cfg.hinge_inset * (1 + nhi)
    hingeWidth := cfg.scale * cfg.hinge_width * (1 + nhw)
    spacing := cfg.scale * cfg.spacing * (1 + nsp) }

/-- Dimensions drawn inside the loop (lines 198-229), reading the stream at
positions k..k+8.  Spacing noise is symmetric here (line 211) and the hinge
inset is clamped to the freshly drawn cover thickness (line 226). -/
def stepDims (cfg : Config) (rnd : ℕ → ℚ) (k : ℕ) : Dims :=
  let nh := noise (rnd k) cfg.rndm_book_height_factor
  let nw := noise (rnd (k + 1)) cfg.rndm_book_width_factor
  let nd := noise (rnd (k + 2)) cfg.rndm_book_depth_factor
  let nt := noise (rnd (k + 3)) cfg.rndm_textblock_offset_factor
  let nc := noise (rnd (k + 4)) cfg.rndm_cover_thickness_factor
  let ns := noise (rnd (k + 5)) cfg.rndm_spline_curl_factor
  let nhi := noise (rnd (k + 6)) cfg.rndm_hinge_inset_factor
  let nhw := noise (rnd (k + 7)) cfg.rndm_hinge_width_factor
  let nsp := noise (rnd (k + 8)) cfg.rndm_spacing_factor
  let bh := cfg.scale * cfg.book_height * (1 + nh)
  let bw := cfg.scale * cfg.book_width * (1 + nw)
  let bd := cfg.scale * cfg.book_depth * (1 + nd)
  let ct := cfg.scale * cfg.cover_thickness * (1 + nc)
  let tbo := cfg.scale * cfg.textblock_offset * (1 + nt)
  let hi := cfg.scale * cfg.hinge_inset + cfg.scale * cfg.hinge_inset * nhi
  { bookHeight := bh
    bookWidth := bw
    bookDepth := bd
    coverThickness := ct
    textblockOffset := tbo
    textblockHeight := bh - tbo
    textblockDepth := bd - tbo
    textblockThickness := bw - 2 * ct
    splineCurl := cfg.scale * cfg.spline_curl * (1 + ns)
    hingeInset := if hi ≤ ct then hi else ct
    hingeWidth := cfg.scale * cfg.hinge_width * (1 + nhw)
    spacing := cfg.scale * cfg.spacing * (1 + nsp) }

/-- Placement angle chosen by the axis enum (lines 186-191). -/
def placementAngle (cfg : Config) : PlacementAngle :=
  if cfg.axis = 0 then .xAxis else if cfg.axis = 1 then .yAxis else .custom cfg.angle

/-- Guard of the while loop (line 160): cur_width + book_width < width * scale. -/
def loopCond (cfg : Config) (st : State) : Bool :=
  decide (st.curWidth + st.dims.bookWidth < cfg.width * cfg.scale)

/-- Book emitted by one loop iteration: current dimensions, rotation and the
current cumulative offset (lines 162-194). -/
def mkBook (cfg : Config) (st : State) : Book :=
  { dims := st.dims, rotation := placementAngle cfg, offset := st.curOffset }

/-- Tail of one loop iteration (lines 196-234): remember old_width, draw the
next book's dimensions, then advance cur_width by old_width + spacing and
cur_offset by book_width/2 + old_width/2 + spacing (with the fresh values). -/
def step (cfg : Config) (rnd : ℕ → ℚ) (st : State) : State :=
  let oldWidth := st.dims.bookWidth
  let d := stepDims cfg rnd st.k
  { curWidth := st.curWidth + (oldWidth + d.spacing)
    curOffset := st.curOffset + (d.bookWidth / 2 + oldWidth / 2 + d.spacing)
    dims := d
    k := st.k + 9 }

/-- Fuel-indexed unfolding of the while loop.  Returns the emitted books and
the final state; the source loop has no iteration cap, so exhausting the fuel
with the guard still true models a run that has not terminated yet. -/
def runAux (cfg : Config) (rnd : ℕ → ℚ) : ℕ → State → List Book × State
  | 0, st => ([], st)
  | n + 1, st =>
    if loopCond cfg st then
      let out := runAux cfg rnd n (step cfg rnd st)
      (mkBook cfg st :: out.1, out.2)
    else ([], st)

/-- Initial loop state (lines 120-157): cur_width = 0, cur_offset = 0, first
dimensions drawn at stream positions 0..8. -/
def initState (cfg : Config) (rnd : ℕ → ℚ) : State :=
  { curWidth := 0, curOffset := 0, dims := initDims cfg rnd, k := 9 }

/-- Fill loop of bookGen.run, as a function of the random stream that is in
effect after random.seed(self.seed). -/
def run (cfg : Config) (rnd : ℕ → ℚ) (fuel : ℕ) : List Book × State :=
  runAux cfg rnd fuel (initState cfg rnd)

/-- State of the Python global random module: the stream of future values of
random.random() and the current read position. -/
structure PyRandomState where
  stream : ℕ → ℚ
  pos : ℕ

/-- Model of random.seed s: the generator state is replaced by one that is a
function of the seed alone; whatever state the global module had before the
call is discarded.  mkStream models the seeded Mersenne Twister. -/
def pySeed (mkStream : ℤ → ℕ → ℚ) (s : ℤ) (_g : PyRandomState) : PyRandomState :=
  { stream := mkStream s, pos := 0 }

/-- bookGen.run entry point (line 117): it reseeds the global random module
with self.seed (line 123) and then runs the fill loop on the reseeded
stream. -/
def opRun (mkStream : ℤ → ℕ → ℚ) (g : PyRandomState) (cfg : Config) (fuel : ℕ) :
    List Book × State :=
  let g1 := pySeed mkStream cfg.seed g
  run cfg (fun n => g1.stream (g1.pos + n)) fuel

/-- Seed bookkeeping of OBJECT_OT_BookGenRebuild.run (operator.py lines
43-59): for each shelf collection the shared parameters dictionary's seed is
incremented by the shelf id, the shelf is filled with the dictionary in that
state, and the seed is decremented again.  The result records, per shelf, the
pair (id, seed value observed by the fill), together with the final seed. -/
def rebuild_run (baseSeed : ℤ) (shelves : List ℤ) : List (ℤ × ℤ) × ℤ :=
  shelves.foldl
    (fun acc i =>
      let seedUp := acc.2 + i
      let fills := acc.1 ++ [(i, seedUp)]
      let seedDown := seedUp - i
      (fills, seedDown))
    ([], baseSeed)

/-- get_shelf_collection_by_index (utils.py lines 31-35): None for an index
that is negative or at least the number of children, otherwise the child at
that index.  The children of the BookGen collection are modelled as a list. -/
def get_shelf_collection_by_index {α : Type} (children : List α) (index : ℤ) :
    Option α :=
  if index < 0 ∨ (children.length : ℤ) ≤ index then none
  else children[index.toNat]?

/-- Stream that always yields 0, a concrete instantiation of the random
stream used for witnesses and counterexamples. -/
def rnd0 : ℕ → ℚ := fun _ => 0

/-- Concrete configuration of the spec's shelf example: total width 1, scale
1, book width 0.1, spacing 0, every randomness factor 0; the remaining bases
are the operator's property defaults. -/
def cfgC2 : Config :=
  { width := 1
    scale := 1
    seed := 0
    axis := 0
    angle := 0
    book_height := 3
    rndm_book_height_factor := 0
    book_width := 1 / 10
    rndm_book_width_factor := 0
    book_depth := 3
    rndm_book_depth_factor := 0
    cover_thickness := 1 / 20
    rndm_cover_thickness_factor := 0
    textblock_offset := 1 / 10
    rndm_textblock_offset_factor := 0
    spline_curl := 1 / 100
    rndm_spline_curl_factor := 0
    hinge_inset := 3 / 100
    rndm_hinge_inset_factor := 0
    hinge_width := 2 / 25
    rndm_hinge_width_factor := 0
    spacing := 0
    rndm_spacing_factor := 0 }

/-- Degenerate configuration for the termination claim: zero base book width,
zero spacing, all randomness factors 0, positive shelf width. -/
def cfgC4 : Config := { cfgC2 with book_width := 0 }

/-- Configuration exercising the spacing randomness: base spacing 0.05 with
spacing randomness factor 1. -/
def cfgC5 : Config := { cfgC2 with spacing := 1 / 20, rndm_spacing_factor := 1 }

/-- Configuration with a spacing far larger than the shelf width. -/
def cfgC6 : Config := { cfgC2 with spacing := 10 }

/-- Configuration exercising the hinge-inset clamp: hinge inset base equal to
the cover thickness base, both with randomness factor 1. -/
def cfgC3 : Config :=
  { cfgC2 with
    cover_thickness := 1 / 20
    rndm_cover_thickness_factor := 1
    hinge_inset := 1 / 20
    rndm_hinge_inset_factor := 1 }

/-- Stream whose cover-thickness draw is low and whose hinge-inset draw is
high, all values inside [0, 1). -/
def rndC3 : ℕ → ℚ := fun n => if n = 4 then 0 else if n = 6 then 9 / 10 else 0

lemma runAux_zero_eq (cfg : Config) (rnd : ℕ → ℚ) (st : State) :
    runAux cfg rnd 0 st = ([], st) := rfl

lemma runAux_succ_eq (cfg : Config) (rnd : ℕ → ℚ) (n : ℕ) (st : State) :
    runAux cfg rnd (n + 1) st =
      if loopCond cfg st then
        (mkBook cfg st :: (runAux cfg rnd n (step cfg rnd st)).1,
          (runAux cfg rnd n (step cfg rnd st)).2)
      else ([], st) := rfl

lemma loopCond_iff (cfg : Config) (st : State) :
    loopCond cfg st = true ↔ st.curWidth + st.dims.bookWidth < cfg.width * cfg.scale := by
  simp [loopCond]

lemma step_dims (cfg : Config) (rnd : ℕ → ℚ) (st : State) :
    (step cfg rnd st).dims = stepDims cfg rnd st.k := rfl

lemma step_curWidth (cfg : Config) (rnd : ℕ → ℚ) (st : State) :
    (step cfg rnd st).curWidth =
      st.curWidth + (st.dims.bookWidth + (stepDims cfg rnd st.k).spacing) := rfl

lemma step_curOffset (cfg : Config) (rnd : ℕ → ℚ) (st : State) :
    (step cfg rnd st).curOffset =
      st.curOffset + ((stepDims cfg rnd st.k).bookWidth / 2 + st.dims.bookWidth / 2 +
        (stepDims cfg rnd st.k).spacing) := rfl

lemma mkBook_dims (cfg : Config) (st : State) : (mkBook cfg st).dims = st.dims := rfl

lemma mkBook_offset (cfg : Config) (st : State) : (mkBook cfg st).offset = st.curOffset := rfl

lemma initState_dims (cfg : Config) (rnd : ℕ → ℚ) :
    (initState cfg rnd).dims = initDims cfg rnd := rfl

lemma initDims_bookWidth (cfg : Config) (rnd : ℕ → ℚ) :
    (initDims cfg rnd).bookWidth =
      cfg.scale * cfg.book_width * (1 + noise (rnd 1) cfg.rndm_book_width_factor) := rfl

lemma initDims_spacing (cfg : Config) (rnd : ℕ → ℚ) :
    (initDims cfg rnd).spacing =
      cfg.scale * cfg.spacing * (1 + rnd 8 * cfg.rndm_spacing_factor) := rfl

lemma stepDims_bookWidth (cfg : Config) (rnd : ℕ → ℚ) (k : ℕ) :
    (stepDims cfg rnd k).bookWidth =
      cfg.scale * cfg.book_width * (1 + noise (rnd (k + 1)) cfg.rndm_book_width_factor) := rfl

lemma stepDims_spacing (cfg : Config) (rnd : ℕ → ℚ) (k : ℕ) :
    (stepDims cfg rnd k).spacing =
      cfg.scale * cfg.spacing * (1 + noise (rnd (k + 8)) cfg.rndm_spacing_factor) := rfl

lemma stepDims_coverThickness (cfg : Config) (rnd : ℕ → ℚ) (k : ℕ) :
    (stepDims cfg rnd k).coverThickness =
      cfg.scale * cfg.cover_thickness * (1 + noise (rnd (k + 4)) cfg.rndm_cover_thickness_factor) := rfl

lemma stepDims_hingeInset (cfg : Config) (rnd : ℕ → ℚ) (k : ℕ) :
    (stepDims cfg rnd k).hingeInset =
      if cfg.scale * cfg.hinge_inset +
            cfg.scale * cfg.hinge_inset * noise (rnd (k + 6)) cfg.rndm_hinge_inset_factor ≤
          (stepDims cfg rnd k).coverThickness
      then cfg.scale * cfg.hinge_inset +
            cfg.scale * cfg.hinge_inset * noise (rnd (k + 6)) cfg.rndm_hinge_inset_factor
      else (stepDims cfg rnd k).coverThickness := rfl

/-- Books drawn inside the loop always satisfy the hinge clamp of line 226. -/
lemma stepDims_hinge_le (cfg : Config) (rnd : ℕ → ℚ) (k : ℕ) :
    (stepDims cfg rnd k).hingeInset ≤ (stepDims cfg rnd k).coverThickness := by
  rw [stepDims_hingeInset]
  split_ifs with h
  · exact h
  · exact le_refl _

/-- A fill that emitted no book left the loop state untouched. -/
lemma runAux_nil (cfg : Config) (rnd : ℕ → ℚ) (fuel : ℕ) (st : State) :
    (runAux cfg rnd fuel st).1 = [] → (runAux cfg rnd fuel st).2 = st := by
  cases fuel with
  | zero => intro _; rfl
  | succ n =>
    rw [runAux_succ_eq]
    by_cases h : loopCond cfg st
    · simp [h]
    · simp [h]

/-- The first emitted book is the one built from the entry state. -/
lemma runAux_head (cfg : Config) (rnd : ℕ → ℚ) (fuel : ℕ) (st : State) (b : Book)
    (l : List Book) (hb : (runAux cfg rnd fuel st).1 = b :: l) : b = mkBook cfg st := by
  cases fuel with
  | zero => simp [runAux_zero_eq] at hb
  | succ n =>
    rw [runAux_succ_eq] at hb
    by_cases h : loopCond cfg st
    · simp [h] at hb
      exact hb.1.symm
    · simp [h] at hb

/-- Property of dimensions preserved along the fill: if it holds of the entry
state's dimensions and of every in-loop draw, it holds of every emitted
book. -/
lemma runAux_books_dims (cfg : Config) (rnd : ℕ → ℚ) (P : Dims → Prop)
    (hstep : ∀ k, P (stepDims cfg rnd k)) :
    ∀ (fuel : ℕ) (st : State), P st.dims → ∀ b ∈ (runAux cfg rnd fuel st).1, P b.dims := by
  intro fuel
  induction fuel with
  | zero => intro st _ b hb; simp [runAux_zero_eq] at hb
  | succ n ih =>
    intro st hst b hb
    rw [runAux_succ_eq] at hb
    by_cases h : loopCond cfg st
    · simp only [if_pos h, List.mem_cons] at hb
      rcases hb with rfl | hb
      · exact hst
      · exact ih (step cfg rnd st) (hstep st.k) b hb
    · simp [h] at hb

/-- Every book emitted after the first one carries in-loop dimensions. -/
lemma runAux_tail_dims (cfg : Config) (rnd : ℕ → ℚ) (P : Dims → Prop)
    (hstep : ∀ k, P (stepDims cfg rnd k)) (fuel : ℕ) (st : State) :
    ∀ b ∈ (runAux cfg rnd fuel st).1.drop 1, P b.dims := by
  intro b hb
  cases fuel with
  | zero => simp [runAux_zero_eq] at hb
  | succ n =>
    rw [runAux_succ_eq] at hb
    by_cases h : loopCond cfg st
    · simp only [if_pos h, List.drop_succ_cons, List.drop_zero] at hb
      exact runAux_books_dims cfg rnd P hstep n (step cfg rnd st) (hstep st.k) b hb
    · simp [h] at hb

/-- A book was only emitted under the loop guard, so the final cumulative
width overshoots width * scale by strictly less than the spacing drawn in the
last executed iteration. -/
lemma runAux_final_bound (cfg : Config) (rnd : ℕ → ℚ) :
    ∀ (fuel : ℕ) (st : State), (runAux cfg rnd fuel st).1 ≠ [] →
      (runAux cfg rnd fuel st).2.curWidth <
        cfg.width * cfg.scale + (runAux cfg rnd fuel st).2.dims.spacing := by
  intro fuel
  induction fuel with
  | zero => intro st h; simp [runAux_zero_eq] at h
  | succ n ih =>
    intro st h
    rw [runAux_succ_eq] at h ⊢
    by_cases hc : loopCond cfg st
    · simp only [if_pos hc] at h ⊢
      by_cases hrest : (runAux cfg rnd n (step cfg rnd st)).1 = []
      · have h2 := runAux_nil cfg rnd n (step cfg rnd st) hrest
        rw [h2]
        have hguard := (loopCond_iff cfg st).mp hc
        rw [step_curWidth, step_dims]
        linarith
      · exact ih (step cfg rnd st) hrest
    · simp [hc] at h

/-- Bounds of the symmetric noise term for a stream value in [0, 1) and a
randomness factor in [0, 1]. -/
lemma noise_bounds (r f : ℚ) (h0 : 0 ≤ r) (h1 : r < 1) (hf0 : 0 ≤ f) :
    -(f / 5) ≤ noise r f ∧ noise r f ≤ f / 5 := by
  unfold noise
  constructor
  · nlinarith
  · nlinarith

/-- Every cumulative offset increment of the fill loop is positive when the
in-loop widths are positive and the in-loop spacings nonnegative, so the
emitted offsets are strictly increasing. -/
lemma runAux_offsets_chain (cfg : Config) (rnd : ℕ → ℚ)
    (hw : ∀ k, 0 < (stepDims cfg rnd k).bookWidth)
    (hs : ∀ k, 0 ≤ (stepDims cfg rnd k).spacing) :
    ∀ (fuel : ℕ) (st : State), 0 < st.dims.bookWidth →
      List.Chain' (· < ·) ((runAux cfg rnd fuel st).1.map Book.offset) := by
  intro fuel
  induction fuel with
  | zero => intro st _; simp [runAux_zero_eq]
  | succ n ih =>
    intro st hst
    rw [runAux_succ_eq]
    by_cases hc : loopCond cfg st
    · simp only [if_pos hc, List.map_cons]
      rw [List.chain'_cons']
      refine ⟨?_, ih (step cfg rnd st) (by rw [step_dims]; exact hw st.k)⟩
      intro y hy
      cases hrest : (runAux cfg rnd n (step cfg rnd st)).1 with
      | nil => rw [hrest] at hy; simp at hy
      | cons b l =>
        have hb := runAux_head cfg rnd n (step cfg rnd st) b l hrest
        rw [hrest] at hy
        simp only [List.map_cons, List.head?_cons, Option.mem_def, Option.some.injEq] at hy
        rw [← hy, hb, mkBook_offset, mkBook_offset, step_curOffset]
        have h1 := hw st.k
        have h2 := hs st.k
        linarith
    · simp [hc]

/-- All randomness factors of a configuration are zero. -/
def zeroFactors (cfg : Config) : Prop :=
  cfg.rndm_book_height_factor = 0 ∧
  cfg.rndm_book_width_factor = 0 ∧
  cfg.rndm_book_depth_factor = 0 ∧
  cfg.rndm_cover_thickness_factor = 0 ∧
  cfg.rndm_textblock_offset_factor = 0 ∧
  cfg.rndm_spline_curl_factor = 0 ∧
  cfg.rndm_hinge_inset_factor = 0 ∧
  cfg.rndm_hinge_width_factor = 0 ∧
  cfg.rndm_spacing_factor = 0

/-- Dimensions with every noise term equal to zero: the scaled base values. -/
def baseDims (cfg : Config) : Dims :=
  { bookHeight := cfg.scale * cfg.book_height
    bookWidth := cfg.scale * cfg.book_width
    bookDepth := cfg.scale * cfg.book_depth
    coverThickness := cfg.scale * cfg.cover_thickness
    textblockOffset := cfg.scale * cfg.textblock_offset
    textblockHeight := cfg.scale * cfg.book_height - cfg.scale * cfg.textblock_offset
    textblockDepth := cfg.scale * cfg.book_depth - cfg.scale * cfg.textblock_offset
    textblockThickness := cfg.scale * cfg.book_width - 2 * (cfg.scale * cfg.cover_thickness)
    splineCurl := cfg.scale * cfg.spline_curl
    hingeInset := cfg.scale * cfg.hinge_inset
    hingeWidth := cfg.scale * cfg.hinge_width
    spacing := cfg.scale * cfg.spacing }

lemma initDims_eq_base (cfg : Config) (rnd : ℕ → ℚ) (h : zeroFactors cfg) :
    initDims cfg rnd = baseDims cfg := by
  obtain ⟨h1, h2, h3, h4, h5, h6, h7, h8, h9⟩ := h
  simp only [initDims, baseDims, noise, h1, h2, h3, h4, h5, h6, h7, h8, h9,
    mul_zero, add_zero, mul_one]

lemma stepDims_eq_base (cfg : Config) (rnd : ℕ → ℚ) (k : ℕ) (h : zeroFactors cfg)
    (hh : cfg.scale * cfg.hinge_inset ≤ cfg.scale * cfg.cover_thickness) :
    stepDims cfg rnd k = baseDims cfg := by
  obtain ⟨h1, h2, h3, h4, h5, h6, h7, h8, h9⟩ := h
  simp only [stepDims, baseDims, noise, h1, h2, h3, h4, h5, h6, h7, h8, h9,
    mul_zero, add_zero, mul_one]
  rw [if_pos hh]

/-- With all randomness factors zero (and a hinge-inset base within the cover
thickness, so that the in-loop clamp of line 226 never fires) the fill loop
emits the same books for every random stream; the final cursor values agree
as well. -/
lemma runAux_zero_irrel (cfg : Config) (h : zeroFactors cfg)
    (hh : cfg.scale * cfg.hinge_inset ≤ cfg.scale * cfg.cover_thickness)
    (rnd rnd' : ℕ → ℚ) :
    ∀ (fuel : ℕ) (cw co : ℚ) (d : Dims) (k k' : ℕ),
      (runAux cfg rnd fuel ⟨cw, co, d, k⟩).1 = (runAux cfg rnd' fuel ⟨cw, co, d, k'⟩).1 ∧
      (runAux cfg rnd fuel ⟨cw, co, d, k⟩).2.curWidth =
        (runAux cfg rnd' fuel ⟨cw, co, d, k'⟩).2.curWidth ∧
      (runAux cfg rnd fuel ⟨cw, co, d, k⟩).2.curOffset =
        (runAux cfg rnd' fuel ⟨cw, co, d, k'⟩).2.curOffset ∧
      (runAux cfg rnd fuel ⟨cw, co, d, k⟩).2.dims =
        (runAux cfg rnd' fuel ⟨cw, co, d, k'⟩).2.dims := by
  intro fuel
  induction fuel with
  | zero => intro cw co d k k'; simp [runAux_zero_eq]
  | succ n ih =>
    intro cw co d k k'
    rw [runAux_succ_eq, runAux_succ_eq]
    have hcond : loopCond cfg ⟨cw, co, d, k⟩ = loopCond cfg ⟨cw, co, d, k'⟩ := rfl
    by_cases hc : loopCond cfg ⟨cw, co, d, k⟩
    · rw [if_pos hc, if_pos (hcond ▸ hc)]
      have hstep : step cfg rnd ⟨cw, co, d, k⟩ =
          { curWidth := cw + (d.bookWidth + (baseDims cfg).spacing)
            curOffset := co + ((baseDims cfg).bookWidth / 2 + d.bookWidth / 2 +
              (baseDims cfg).spacing)
            dims := baseDims cfg
            k := k + 9 } := by
        simp [step, stepDims_eq_base cfg rnd _ h hh]
      have hstep' : step cfg rnd' ⟨cw, co, d, k'⟩ =
          { curWidth := cw + (d.bookWidth + (baseDims cfg).spacing)
            curOffset := co + ((baseDims cfg).bookWidth / 2 + d.bookWidth / 2 +
              (baseDims cfg).spacing)
            dims := baseDims cfg
            k := k' + 9 } := by
        simp [step, stepDims_eq_base cfg rnd' _ h hh]
      rw [hstep, hstep']
      obtain ⟨e1, e2, e3, e4⟩ := ih (cw + (d.bookWidth + (baseDims cfg).spacing))
        (co + ((baseDims cfg).bookWidth / 2 + d.bookWidth / 2 + (baseDims cfg).spacing))
        (baseDims cfg) (k + 9) (k' + 9)
      exact ⟨by simp only [e1]; rfl, e2, e3, e4⟩
    · rw [if_neg hc, if_neg (hcond ▸ hc)]
      simp

lemma loopCond_congr (cfg : Config) (s s' : State) (h1 : s.curWidth = s'.curWidth)
    (h2 : s.dims = s'.dims) : loopCond cfg s = loopCond cfg s' := by
  simp [loopCond, h1, h2]

/-- A book among the first one (if any) is the book built from the entry
state. -/
lemma runAux_take_one (cfg : Config) (rnd : ℕ → ℚ) (fuel : ℕ) (st : State) :
    ∀ b ∈ (runAux cfg rnd fuel st).1.take 1, b = mkBook cfg st := by
  intro b hb
  cases hl : (runAux cfg rnd fuel st).1 with
  | nil => rw [hl] at hb; simp at hb
  | cons x l =>
    rw [hl] at hb
    simp at hb
    rw [hb]
    exact runAux_head cfg rnd fuel st x l hl

/-- C1: for every seed and configuration, two independent invocations of the
fill loop produce bit-identical sequences of resolved per-book dimensions and
per-book placements.  bookGen.run starts by reseeding the global random
module with self.seed, so the books and the final loop state are functions of
the seed and the parameters alone, independent of the generator state g1
resp. g2 left behind by anything that ran earlier. -/
theorem claim_C1 (mkStream : ℤ → ℕ → ℚ) (g1 g2 : PyRandomState) (cfg : Config)
    (fuel : ℕ) : opRun mkStream g1 cfg fuel = opRun mkStream g2 cfg fuel := rfl

/-- C9: in the rebuild operator the shared parameters dictionary's seed entry
is incremented by the shelf id before each fill and decremented by the same
id afterwards, so every shelf with id i is filled with seed base + i and the
seed entry is back to its base value after the loop.  Applying the theorem to
an arbitrary prefix of the shelf list gives the intermediate statement that
the seed equals the base value after each shelf. -/
theorem claim_C9 (baseSeed : ℤ) (shelves : List ℤ) :
    (rebuild_run baseSeed shelves).1 = shelves.map (fun i => (i, baseSeed + i)) ∧
    (rebuild_run baseSeed shelves).2 = baseSeed := by
  have key : ∀ (l : List ℤ) (acc : List (ℤ × ℤ)) (s : ℤ),
      List.foldl (fun acc i => (acc.1 ++ [(i, acc.2 + i)], acc.2 + i - i)) (acc, s) l =
        (acc ++ l.map (fun i => (i, s + i)), s) := by
    intro l
    induction l with
    | nil => intro acc s; simp
    | cons x xs ih =>
      intro acc s
      rw [List.foldl_cons]
      have hx : ((acc, s).1 ++ [(x, (acc, s).2 + x)], (acc, s).2 + x - x) =
          ((acc ++ [(x, s + x)] : List (ℤ × ℤ)), s) := by
        simp
      rw [hx, ih]
      simp
  have hdef : rebuild_run baseSeed shelves =
      List.foldl (fun acc i => (acc.1 ++ [(i, acc.2 + i)], acc.2 + i - i))
        ([], baseSeed) shelves := rfl
  rw [hdef, key shelves [] baseSeed]
  simp

/-- C10: get_shelf_collection_by_index returns none exactly when the index is
negative or at least the number of child collections, and otherwise returns
the child collection at that index; being a total function into Option it
never raises an out-of-range error. -/
theorem claim_C10 {α : Type} (children : List α) (index : ℤ) :
    get_shelf_collection_by_index children index =
      if h : 0 ≤ index ∧ index < (children.length : ℤ) then
        some (children.get ⟨index.toNat, by omega⟩)
      else none := by
  unfold get_shelf_collection_by_index
  by_cases h : 0 ≤ index ∧ index < (children.length : ℤ)
  · rw [dif_pos h, if_neg (by omega)]
    have hlt : index.toNat < children.length := by omega
    rw [List.getElem?_eq_getElem hlt]
    simp
  · rw [dif_neg h, if_pos (by omega)]

/-- C2, counterexample: in the spec's example scenario (width 1, scale 1,
book width 0.1, zero randomness, zero spacing) the fill loop does NOT emit
ten books centered at 0.05, 0.15, ..., 0.95: the first center is at offset 0
and the strict guard cur_width + book_width < width * scale stops the loop
after the ninth book. -/
theorem claim_C2_counterexample :
    ¬((run cfgC2 rnd0 20).1.length = 10 ∧
      (run cfgC2 rnd0 20).1.map Book.offset =
        [1 / 20, 3 / 20, 5 / 20, 7 / 20, 9 / 20, 11 / 20, 13 / 20, 15 / 20, 17 / 20,
          19 / 20]) := by
  have h9 : (run cfgC2 rnd0 20).1.length = 9 := by
    norm_num [run, runAux, initState, initDims, stepDims, step, mkBook, loopCond, noise,
      cfgC2, rnd0]
  intro hcl
  rw [h9] at hcl
  exact absurd hcl.1 (by norm_num)

/-- C2, amended: in the example scenario the fill loop emits exactly nine
books, centered at cumulative offsets 0, 0.1, ..., 0.8, and the loop guard is
false at the final state (the loop has genuinely terminated within the given
fuel).  This holds for every random stream because all randomness factors are
zero. -/
theorem claim_C2_amended (rnd : ℕ → ℚ) :
    (run cfgC2 rnd 20).1.map Book.offset =
      [0, 1 / 10, 2 / 10, 3 / 10, 4 / 10, 5 / 10, 6 / 10, 7 / 10, 8 / 10] ∧
    (run cfgC2 rnd 20).1.length = 9 ∧
    loopCond cfgC2 (run cfgC2 rnd 20).2 = false := by
  have hzf : zeroFactors cfgC2 := ⟨rfl, rfl, rfl, rfl, rfl, rfl, rfl, rfl, rfl⟩
  have hh : cfgC2.scale * cfgC2.hinge_inset ≤ cfgC2.scale * cfgC2.cover_thickness := by
    norm_num [cfgC2]
  have e : ∀ r : ℕ → ℚ, run cfgC2 r 20 = runAux cfgC2 r 20 ⟨0, 0, baseDims cfgC2, 9⟩ := by
    intro r
    unfold run initState
    rw [initDims_eq_base cfgC2 r hzf]
  obtain ⟨e1, e2, e3, e4⟩ := runAux_zero_irrel cfgC2 hzf hh rnd rnd0 20 0 0 (baseDims cfgC2) 9 9
  rw [e rnd, e1, loopCond_congr cfgC2 _ _ e2 e4, ← e rnd0]
  norm_num [run, runAux, initState, initDims, stepDims, step, mkBook, loopCond, noise,
    cfgC2, rnd0]

/-- C3, counterexample: the first generated book of a fill can have its
resolved hinge inset strictly above its resolved cover thickness, because the
pre-loop draw (line 154) has no clamp: with hinge base = cover base = 0.05,
both factors 1, a low cover draw and a high hinge draw give cover 0.04 and
hinge 0.058. -/
theorem claim_C3_counterexample :
    (run cfgC3 rndC3 5).1.length = 5 ∧
    ((run cfgC3 rndC3 5).1.headD default).dims.coverThickness <
      ((run cfgC3 rndC3 5).1.headD default).dims.hingeInset := by
  norm_num [run, runAux, initState, initDims, stepDims, step, mkBook, loopCond, noise,
    cfgC3, cfgC2, rndC3]

/-- C3, amended: for every generated book except the first one, the resolved
hinge inset is at most the resolved cover thickness of the same book, because
every in-loop draw applies the clamp of line 226. -/
theorem claim_C3_amended (cfg : Config) (rnd : ℕ → ℚ) (fuel : ℕ) :
    ∀ b ∈ (run cfg rnd fuel).1.drop 1, b.dims.hingeInset ≤ b.dims.coverThickness := by
  intro b hb
  exact runAux_tail_dims cfg rnd (fun d => d.hingeInset ≤ d.coverThickness)
    (fun k => stepDims_hinge_le cfg rnd k) fuel (initState cfg rnd) b hb

/-- C3, witness: the second book of the example fill satisfies the clamp. -/
theorem claim_C3_witness :
    (((run cfgC2 rnd0 20).1.drop 1).headD default).dims.hingeInset ≤
      (((run cfgC2 rnd0 20).1.drop 1).headD default).dims.coverThickness :=
  claim_C3_amended cfgC2 rnd0 20 _ (by
    norm_num [run, runAux, initState, initDims, stepDims, step, mkBook, loopCond, noise,
      cfgC2, rnd0])

/-- C4: with book_width base 0, spacing base 0 and all randomness factors 0
but shelf width 1, every loop iteration leaves cur_width at 0 and the guard
0 + 0 < 1 stays true, so the fill loop emits one book per unit of fuel for
EVERY amount of fuel: the source loop, which has no iteration cap at all,
diverges on this input instead of stopping and reporting a budget-exceeded
condition as the spec requires. -/
theorem claim_C4 (rnd : ℕ → ℚ) (fuel : ℕ) : (run cfgC4 rnd fuel).1.length = fuel := by
  have inv : ∀ (n : ℕ) (co : ℚ) (d : Dims) (k : ℕ), d.bookWidth = 0 → d.spacing = 0 →
      (runAux cfgC4 rnd n ⟨0, co, d, k⟩).1.length = n := by
    intro n
    induction n with
    | zero => intro co d k _ _; rfl
    | succ m ih =>
      intro co d k hw hs
      rw [runAux_succ_eq]
      have hc : loopCond cfgC4 ⟨0, co, d, k⟩ = true := by
        rw [loopCond_iff]
        show (0 : ℚ) + d.bookWidth < cfgC4.width * cfgC4.scale
        rw [hw]
        norm_num [cfgC4, cfgC2]
      rw [if_pos hc]
      have hw' : (stepDims cfgC4 rnd k).bookWidth = 0 := by
        rw [stepDims_bookWidth]
        norm_num [cfgC4, cfgC2]
      have hs' : (stepDims cfgC4 rnd k).spacing = 0 := by
        rw [stepDims_spacing]
        norm_num [cfgC4, cfgC2]
      have hstate : step cfgC4 rnd ⟨0, co, d, k⟩ =
          ⟨0, co + ((stepDims cfgC4 rnd k).bookWidth / 2 + d.bookWidth / 2 +
            (stepDims cfgC4 rnd k).spacing), stepDims cfgC4 rnd k, k + 9⟩ := by
        simp [step, hw, hs']
      simp only [List.length_cons, hstate]
      rw [ih _ _ _ hw' hs']
  have hw : (initDims cfgC4 rnd).bookWidth = 0 := by
    rw [initDims_bookWidth]
    norm_num [cfgC4, cfgC2]
  have hs : (initDims cfgC4 rnd).spacing = 0 := by
    rw [initDims_spacing]
    norm_num [cfgC4, cfgC2]
  exact inv fuel 0 (initDims cfgC4 rnd) 9 hw hs

/-- C5, counterexample: a book drawn inside the loop can have a resolved
spacing strictly below scale * spacing_base, which is impossible for a noise
term drawn from the one-sided interval [0, factor]: line 211 draws the
in-loop spacing noise from the symmetric interval (random()*0.4-0.2)*factor. -/
theorem claim_C5_counterexample :
    ((run cfgC5 rnd0 10).1.drop 1).length = 6 ∧
    (((run cfgC5 rnd0 10).1.drop 1).headD default).dims.spacing <
      cfgC5.scale * cfgC5.spacing := by
  norm_num [run, runAux, initState, initDims, stepDims, step, mkBook, loopCond, noise,
    cfgC5, cfgC2, rnd0]

/-- C5, amended: only the first book's spacing noise is drawn from the
one-sided interval [0, factor] (line 139): its resolved spacing lies in
[scale*base, scale*base*(1+factor)].  Every later book's spacing noise comes
from the symmetric interval [-factor/5, factor/5] (line 211), so its resolved
spacing lies in [scale*base*(1-factor/5), scale*base*(1+factor/5)] and the
noise can be negative. -/
theorem claim_C5_amended (cfg : Config) (rnd : ℕ → ℚ) (fuel : ℕ)
    (hr : ∀ n, 0 ≤ rnd n ∧ rnd n < 1) (hsc : 0 ≤ cfg.scale) (hsp : 0 ≤ cfg.spacing)
    (hf : 0 ≤ cfg.rndm_spacing_factor) :
    (∀ b ∈ (run cfg rnd fuel).1.take 1,
      cfg.scale * cfg.spacing ≤ b.dims.spacing ∧
      b.dims.spacing ≤ cfg.scale * cfg.spacing * (1 + cfg.rndm_spacing_factor)) ∧
    (∀ b ∈ (run cfg rnd fuel).1.drop 1,
      cfg.scale * cfg.spacing * (1 - cfg.rndm_spacing_factor / 5) ≤ b.dims.spacing ∧
      b.dims.spacing ≤ cfg.scale * cfg.spacing * (1 + cfg.rndm_spacing_factor / 5)) := by
  constructor
  · intro b hb
    have hbm := runAux_take_one cfg rnd fuel (initState cfg rnd) b hb
    have hd : b.dims.spacing =
        cfg.scale * cfg.spacing * (1 + rnd 8 * cfg.rndm_spacing_factor) := by
      rw [hbm, mkBook_dims, initState_dims, initDims_spacing]
    obtain ⟨h0, h1⟩ := hr 8
    have hss : 0 ≤ cfg.scale * cfg.spacing := mul_nonneg hsc hsp
    have hrf : 0 ≤ rnd 8 * cfg.rndm_spacing_factor := mul_nonneg h0 hf
    have hru : rnd 8 * cfg.rndm_spacing_factor ≤ cfg.rndm_spacing_factor := by nlinarith
    constructor
    · rw [hd]; nlinarith
    · rw [hd]; nlinarith
  · have hstep : ∀ k,
        cfg.scale * cfg.spacing * (1 - cfg.rndm_spacing_factor / 5) ≤
          (stepDims cfg rnd k).spacing ∧
        (stepDims cfg rnd k).spacing ≤
          cfg.scale * cfg.spacing * (1 + cfg.rndm_spacing_factor / 5) := by
      intro k
      obtain ⟨hn0, hn1⟩ := noise_bounds (rnd (k + 8)) cfg.rndm_spacing_factor
        (hr (k + 8)).1 (hr (k + 8)).2 hf
      have hss : 0 ≤ cfg.scale * cfg.spacing := mul_nonneg hsc hsp
      rw [stepDims_spacing]
      constructor
      · nlinarith
      · nlinarith
    intro b hb
    exact runAux_tail_dims cfg rnd
      (fun d => cfg.scale * cfg.spacing * (1 - cfg.rndm_spacing_factor / 5) ≤ d.spacing ∧
        d.spacing ≤ cfg.scale * cfg.spacing * (1 + cfg.rndm_spacing_factor / 5))
      hstep fuel (initState cfg rnd) b hb

/-- C6, counterexample: with base spacing 10 on a shelf of width 1 the loop
emits one book and leaves cur_width at 10.1, exceeding width * scale = 1 by
far more than the last emitted book's half-width 0.05: the overshoot is
bounded by the freshly drawn spacing, not by a half-width. -/
theorem claim_C6_counterexample :
    (run cfgC6 rnd0 20).1.length = 1 ∧
    cfgC6.width * cfgC6.scale +
        ((run cfgC6 rnd0 20).1.map (fun b => b.dims.bookWidth)).getLastD 0 / 2 <
      (run cfgC6 rnd0 20).2.curWidth := by
  norm_num [run, runAux, initState, initDims, stepDims, step, mkBook, loopCond, noise,
    cfgC6, cfgC2, rnd0]

/-- C6, amended: for positive base book width, nonnegative base spacing,
width, scale and randomness factors at most 1, the emitted cumulative offsets
are strictly increasing; and the final cumulative occupied width cur_width
either belongs to an empty fill or exceeds the configured shelf width
width * scale by strictly less than the spacing drawn in the last executed
iteration (not by at most the last book's half-width, which the
counterexample refutes). -/
theorem claim_C6_amended (cfg : Config) (rnd : ℕ → ℚ) (fuel : ℕ)
    (hr : ∀ n, 0 ≤ rnd n ∧ rnd n < 1)
    (hbw : 0 < cfg.book_width) (hsp : 0 ≤ cfg.spacing) (hW : 0 ≤ cfg.width)
    (hsc : 0 ≤ cfg.scale)
    (hfw : 0 ≤ cfg.rndm_book_width_factor) (hfw1 : cfg.rndm_book_width_factor ≤ 1)
    (hfs : 0 ≤ cfg.rndm_spacing_factor) (hfs1 : cfg.rndm_spacing_factor ≤ 1) :
    List.Chain' (· < ·) ((run cfg rnd fuel).1.map Book.offset) ∧
    ((run cfg rnd fuel).1 = [] ∨
      (run cfg rnd fuel).2.curWidth <
        cfg.width * cfg.scale + (run cfg rnd fuel).2.dims.spacing) := by
  constructor
  · rcases eq_or_lt_of_le hsc with hsc0 | hscpos
    · have hbw0 : (initDims cfg rnd).bookWidth = 0 := by
        rw [initDims_bookWidth, ← hsc0]
        ring
      have hcond : loopCond cfg (initState cfg rnd) = false := by
        simp only [loopCond, decide_eq_false_iff_not, initState]
        rw [hbw0, ← hsc0, mul_zero]
        norm_num
      have hnil : (run cfg rnd fuel).1 = [] := by
        cases fuel with
        | zero => rfl
        | succ n =>
          show (runAux cfg rnd (n + 1) (initState cfg rnd)).1 = []
          rw [runAux_succ_eq]
          simp [hcond]
      rw [hnil]
      simp
    · have hwpos : ∀ k, 0 < (stepDims cfg rnd k).bookWidth := by
        intro k
        rw [stepDims_bookWidth]
        obtain ⟨hn0, hn1⟩ := noise_bounds (rnd (k + 1)) cfg.rndm_book_width_factor
          (hr (k + 1)).1 (hr (k + 1)).2 hfw
        exact mul_pos (mul_pos hscpos hbw) (by linarith)
      have hsnn : ∀ k, 0 ≤ (stepDims cfg rnd k).spacing := by
        intro k
        rw [stepDims_spacing]
        obtain ⟨hn0, hn1⟩ := noise_bounds (rnd (k + 8)) cfg.rndm_spacing_factor
          (hr (k + 8)).1 (hr (k + 8)).2 hfs
        exact mul_nonneg (mul_nonneg hsc hsp) (by linarith)
      have hinitw : 0 < (initState cfg rnd).dims.bookWidth := by
        rw [initState_dims, initDims_bookWidth]
        obtain ⟨hn0, hn1⟩ := noise_bounds (rnd 1) cfg.rndm_book_width_factor
          (hr 1).1 (hr 1).2 hfw
        exact mul_pos (mul_pos hscpos hbw) (by linarith)
      exact runAux_offsets_chain cfg rnd hwpos hsnn fuel (initState cfg rnd) hinitw
  · by_cases hnil : (run cfg rnd fuel).1 = []
    · exact Or.inl hnil
    · exact Or.inr (runAux_final_bound cfg rnd fuel (initState cfg rnd) hnil)

/-- C5, witness: the bounds at the first and at the second book of a fill
with base spacing 0.05 and spacing randomness factor 1. -/
theorem claim_C5_witness :
    (cfgC5.scale * cfgC5.spacing ≤
        (((run cfgC5 rnd0 10).1.take 1).headD default).dims.spacing ∧
      (((run cfgC5 rnd0 10).1.take 1).headD default).dims.spacing ≤
        cfgC5.scale * cfgC5.spacing * (1 + cfgC5.rndm_spacing_factor)) ∧
    (cfgC5.scale * cfgC5.spacing * (1 - cfgC5.rndm_spacing_factor / 5) ≤
        (((run cfgC5 rnd0 10).1.drop 1).headD default).dims.spacing ∧
      (((run cfgC5 rnd0 10).1.drop 1).headD default).dims.spacing ≤
        cfgC5.scale * cfgC5.spacing * (1 + cfgC5.rndm_spacing_factor / 5)) :=
  ⟨(claim_C5_amended cfgC5 rnd0 10 (fun _ => ⟨le_refl 0, by norm_num [rnd0]⟩)
      (by norm_num [cfgC5, cfgC2]) (by norm_num [cfgC5, cfgC2])
      (by norm_num [cfgC5, cfgC2])).1 _ (by
        norm_num [run, runAux, initState, initDims, stepDims, step, mkBook, loopCond, noise,
          cfgC5, cfgC2, rnd0]),
   (claim_C5_amended cfgC5 rnd0 10 (fun _ => ⟨le_refl 0, by norm_num [rnd0]⟩)
      (by norm_num [cfgC5, cfgC2]) (by norm_num [cfgC5, cfgC2])
      (by norm_num [cfgC5, cfgC2])).2 _ (by
        norm_num [run, runAux, initState, initDims, stepDims, step, mkBook, loopCond, noise,
          cfgC5, cfgC2, rnd0])⟩

/-- C6, witness: the strictly increasing offsets and the final-width bound at
the example fill. -/
theorem claim_C6_witness :
    List.Chain' (· < ·) ((run cfgC2 rnd0 20).1.map Book.offset) ∧
    ((run cfgC2 rnd0 20).1 = [] ∨
      (run cfgC2 rnd0 20).2.curWidth <
        cfgC2.width * cfgC2.scale + (run cfgC2 rnd0 20).2.dims.spacing) :=
  claim_C6_amended cfgC2 rnd0 20 (fun _ => ⟨le_refl 0, by norm_num [rnd0]⟩)
    (by norm_num [cfgC2]) (by norm_num [cfgC2]) (by norm_num [cfgC2]) (by norm_num [cfgC2])
    (by norm_num [cfgC2]) (by norm_num [cfgC2]) (by norm_num [cfgC2]) (by norm_num [cfgC2])

/-- C7: with all randomness factors 0 and scale 1 (for a style satisfying the
BookStyle invariant hinge_inset <= cover_thickness, under which the in-loop
clamp of line 226 never fires), every generated book carries exactly the base
dimensions, for every random stream, hence for every seed. -/
theorem claim_C7 (cfg : Config) (rnd : ℕ → ℚ) (fuel : ℕ) (h : zeroFactors cfg)
    (hscale : cfg.scale = 1) (hhinge : cfg.hinge_inset ≤ cfg.cover_thickness) :
    ∀ b ∈ (run cfg rnd fuel).1,
      b.dims.bookHeight = cfg.book_height ∧
      b.dims.bookWidth = cfg.book_width ∧
      b.dims.bookDepth = cfg.book_depth ∧
      b.dims.coverThickness = cfg.cover_thickness ∧
      b.dims.textblockOffset = cfg.textblock_offset ∧
      b.dims.splineCurl = cfg.spline_curl ∧
      b.dims.hingeInset = cfg.hinge_inset ∧
      b.dims.hingeWidth = cfg.hinge_width ∧
      b.dims.spacing = cfg.spacing := by
  have hh : cfg.scale * cfg.hinge_inset ≤ cfg.scale * cfg.cover_thickness := by
    rw [hscale, one_mul, one_mul]
    exact hhinge
  intro b hb
  have hd : b.dims = baseDims cfg :=
    runAux_books_dims cfg rnd (fun d => d = baseDims cfg)
      (fun k => stepDims_eq_base cfg rnd k h hh) fuel (initState cfg rnd)
      (by rw [initState_dims, initDims_eq_base cfg rnd h]) b hb
  rw [hd]
  simp [baseDims, hscale]

/-- C7, witness: the first book of the example fill has exactly the base
dimensions. -/
theorem claim_C7_witness :
    ((run cfgC2 rnd0 20).1.headD default).dims.bookHeight = cfgC2.book_height ∧
    ((run cfgC2 rnd0 20).1.headD default).dims.bookWidth = cfgC2.book_width ∧
    ((run cfgC2 rnd0 20).1.headD default).dims.bookDepth = cfgC2.book_depth ∧
    ((run cfgC2 rnd0 20).1.headD default).dims.coverThickness = cfgC2.cover_thickness ∧
    ((run cfgC2 rnd0 20).1.headD default).dims.textblockOffset = cfgC2.textblock_offset ∧
    ((run cfgC2 rnd0 20).1.headD default).dims.splineCurl = cfgC2.spline_curl ∧
    ((run cfgC2 rnd0 20).1.headD default).dims.hingeInset = cfgC2.hinge_inset ∧
    ((run cfgC2 rnd0 20).1.headD default).dims.hingeWidth = cfgC2.hinge_width ∧
    ((run cfgC2 rnd0 20).1.headD default).dims.spacing = cfgC2.spacing :=
  claim_C7 cfgC2 rnd0 20 ⟨rfl, rfl, rfl, rfl, rfl, rfl, rfl, rfl, rfl⟩ rfl
    (by norm_num [cfgC2]) _ (by
      norm_num [run, runAux, initState, initDims, stepDims, step, mkBook, loopCond, noise,
        cfgC2, rnd0])

/-- C8: every generated book's textblock dimensions are the resolved book
width minus twice the resolved cover thickness (thickness), the resolved book
height minus the resolved textblock offset (height), and the resolved book
depth minus the resolved textblock offset (depth) of that same book: both the
pre-loop block (lines 148-150) and the in-loop block (lines 220-222) compute
them this way. -/
theorem claim_C8 (cfg : Config) (rnd : ℕ → ℚ) (fuel : ℕ) :
    ∀ b ∈ (run cfg rnd fuel).1,
      b.dims.textblockThickness = b.dims.bookWidth - 2 * b.dims.coverThickness ∧
      b.dims.textblockHeight = b.dims.bookHeight - b.dims.textblockOffset ∧
      b.dims.textblockDepth = b.dims.bookDepth - b.dims.textblockOffset := by
  intro b hb
  exact runAux_books_dims cfg rnd
    (fun d => d.textblockThickness = d.bookWidth - 2 * d.coverThickness ∧
      d.textblockHeight = d.bookHeight - d.textblockOffset ∧
      d.textblockDepth = d.bookDepth - d.textblockOffset)
    (fun _ => ⟨rfl, rfl, rfl⟩) fuel (initState cfg rnd) ⟨rfl, rfl, rfl⟩ b hb

/-- C8, witness: the textblock relations at the first book of the example
fill. -/
theorem claim_C8_witness :
    ((run cfgC2 rnd0 20).1.headD default).dims.textblockThickness =
      ((run cfgC2 rnd0 20).1.headD default).dims.bookWidth -
        2 * ((run cfgC2 rnd0 20).1.headD default).dims.coverThickness ∧
    ((run cfgC2 rnd0 20).1.headD default).dims.textblockHeight =
      ((run cfgC2 rnd0 20).1.headD default).dims.bookHeight -
        ((run cfgC2 rnd0 20).1.headD default).dims.textblockOffset ∧
    ((run cfgC2 rnd0 20).1.headD default).dims.textblockDepth =
      ((run cfgC2 rnd0 20).1.headD default).dims.bookDepth -
        ((run cfgC2 rnd0 20).1.headD default).dims.textblockOffset :=
  claim_C8 cfgC2 rnd0 20 _ (by
    norm_num [run, runAux, initState, initDims, stepDims, step, mkBook, loopCond, noise,
      cfgC2, rnd0])

end BookGen
